import Mathlib

/-!
Verification of the newsagg scraper pipeline (Python) against its
natural-language specification.  The Python modules are shallowly embedded:
pure string/JSON manipulation is translated function-by-function; every
network or library effect (HTTP responses, the remote inference client,
`feedparser`/BeautifulSoup outputs, `json.loads`, the wall clock) is an
explicit input of the embedded function, so each run of the Python code
corresponds to one choice of those inputs.
-/

/-! ## ASCII string primitives (model of the Python `str` operations used) -/

/-- Uppercase/lowercase ASCII letter pairs, used to model `str.lower()`
restricted to ASCII (the repository only manipulates ASCII keywords,
labels and configuration values with it). -/
def upperPairs : List (Char × Char) :=
  [('A','a'), ('B','b'), ('C','c'), ('D','d'), ('E','e'), ('F','f'), ('G','g'),
   ('H','h'), ('I','i'), ('J','j'), ('K','k'), ('L','l'), ('M','m'), ('N','n'),
   ('O','o'), ('P','p'), ('Q','q'), ('R','r'), ('S','s'), ('T','t'), ('U','u'),
   ('V','v'), ('W','w'), ('X','x'), ('Y','y'), ('Z','z')]

/-- Is `c` an uppercase ASCII letter? -/
def isUpperA (c : Char) : Bool :=
  upperPairs.any (fun p => p.1 == c)

/-- Is `c` a lowercase ASCII letter? -/
def isLowerA (c : Char) : Bool :=
  upperPairs.any (fun p => p.2 == c)

/-- ASCII lowercasing of one character (model of `str.lower` per char). -/
def asciiLower (c : Char) : Char :=
  ((upperPairs.find? (fun p => p.1 == c)).map (fun p => p.2)).getD c

/-- Model of Python `str.lower()` (ASCII fragment). -/
def asciiLowerStr (s : String) : String :=
  String.mk (s.data.map asciiLower)

/-- ASCII whitespace characters stripped by Python `str.strip()`. -/
def pySpaceChars : List Char :=
  [' ', '\t', '\n', '\x0d', '\x0b', '\x0c']

/-- Is `c` whitespace for the purposes of `str.strip()`? -/
def isPySpace (c : Char) : Bool :=
  pySpaceChars.any (fun w => w == c)

/-- Model of Python `str.strip()` (ASCII whitespace). -/
def pyStrip (s : String) : String :=
  String.mk (((s.data.dropWhile isPySpace).reverse.dropWhile isPySpace).reverse)

/-- Model of `article_service._truncate`: stringified values longer than
`n` characters are cut and suffixed with an ellipsis. -/
def pyTruncate (s : String) (n : Nat := 500) : String :=
  if s.length > n then String.mk (s.data.take n) ++ "..." else s

/-- Python string truthiness: the empty string is falsy. -/
def strTruthy (s : String) : Bool :=
  s ≠ ""

/-- Does the list start with the pattern `pat`? -/
def listStartsWith [BEq α] : (pat s : List α) → Bool
  | [], _ => true
  | _ :: _, [] => false
  | a :: as, b :: bs => a == b && listStartsWith as bs

/-- Does the list contain `pat` as a contiguous sublist? -/
def listHasSub [BEq α] (pat : List α) : (s : List α) → Bool
  | [] => listStartsWith pat []
  | b :: bs => listStartsWith pat (b :: bs) || listHasSub pat bs

/-- Substring containment, modelling Python `pat in s`. -/
def strContains (s pat : String) : Bool :=
  listHasSub pat.data s.data

/-! ## JSON value model

Bodies decoded by `response.json()` / `json.loads` are modelled as this
inductive; numbers are restricted to integers, which covers every value the
claims mention. -/

inductive JValue where
  | null : JValue
  | bool (b : Bool) : JValue
  | num (n : Int) : JValue
  | str (s : String) : JValue
  | arr (xs : List JValue) : JValue
  | obj (fields : List (String × JValue)) : JValue

/-- Python truthiness of a decoded JSON value (`None`, `False`, `0`, `""`,
`[]`, `{}` are falsy). -/
def jTruthy : JValue → Bool
  | .null => false
  | .bool b => b
  | .num n => n ≠ 0
  | .str s => s ≠ ""
  | .arr xs => !xs.isEmpty
  | .obj fs => !fs.isEmpty

/-- Is the value hashable in Python (usable as a `dict` key)? -/
def JValue.isScalar : JValue → Bool
  | .null => true
  | .bool _ => true
  | .num _ => true
  | .str _ => true
  | .arr _ => false
  | .obj _ => false

/-- Equality test on hashable JSON scalars (Python `==` as used by
`dict.fromkeys`; the bool/int numeric coercion is not exercised by any
claim and is omitted). -/
def scalarBeq : JValue → JValue → Bool
  | .null, .null => true
  | .bool a, .bool b => a == b
  | .num a, .num b => a == b
  | .str a, .str b => a == b
  | _, _ => false

/-- Field lookup on a decoded JSON object, modelling `dict.get` with a
default (`json.loads` keeps the last occurrence of a duplicated key). -/
def jGet (fields : List (String × JValue)) (key : String) (dflt : JValue) : JValue :=
  match fields.reverse.find? (fun p => p.1 == key) with
  | some p => p.2
  | none => dflt

/-- Was the key present in the object (`key in dict`)? -/
def jHas (fields : List (String × JValue)) (key : String) : Bool :=
  fields.any (fun p => p.1 == key)

/-- Order-preserving deduplication with respect to `beq`, accumulating the
keys already seen (model of `dict.fromkeys` insertion order). -/
def dedupGo (beq : α → α → Bool) (seen : List α) : List α → List α
  | [] => []
  | x :: xs =>
    if seen.any (fun y => beq y x) then dedupGo beq seen xs
    else x :: dedupGo beq (x :: seen) xs

/-- Model of `list(dict.fromkeys(v))` for a decoded JSON value `v`:
iterating a list dedups its (hashable) elements keeping first-occurrence
order, a string yields its characters, a dict yields its keys, and a
non-iterable value raises `TypeError` (returned here as `none`). -/
def pyFromkeys : JValue → Option (List JValue)
  | .arr xs =>
    if xs.all JValue.isScalar then some (dedupGo scalarBeq [] xs) else none
  | .str s => some (dedupGo scalarBeq [] (s.data.map (fun c => .str (String.mk [c]))))
  | .obj fs => some (dedupGo scalarBeq [] (fs.map (fun p => .str p.1)))
  | .null => none
  | .bool _ => none
  | .num _ => none

/-! ## Dates, instants and the Pacific/Auckland timezone

Model of the `datetime` values flowing through `models/article.py`.  A
`PyDateTime` is a civil timestamp with an optional UTC offset in minutes
(`none` models a naive datetime).  Instants are counted in seconds from the
Unix epoch.  The `tzdata` rule for Pacific/Auckland in the modern era (NZDT
from the last Sunday of September 02:00 NZST to the first Sunday of April
03:00 NZDT; NZST = UTC+12, NZDT = UTC+13) is embedded explicitly. -/

structure PyDateTime where
  year : Int
  month : Int
  day : Int
  hour : Int
  minute : Int
  second : Int
  /-- UTC offset in minutes; `none` models a naive datetime. -/
  offset : Option Int
deriving DecidableEq

/-- Days from the civil epoch 1970-01-01 (Hinnant's `days_from_civil`). -/
def daysFromCivil (y m d : Int) : Int :=
  let yy := if m ≤ 2 then y - 1 else y
  let era := yy / 400
  let yoe := yy - era * 400
  let mp := (m + 9) % 12
  let doy := (153 * mp + 2) / 5 + d - 1
  let doe := yoe * 365 + yoe / 4 - yoe / 100 + doy
  era * 146097 + doe - 719468

/-- Civil date (year, month, day) of a day count from 1970-01-01
(Hinnant's `civil_from_days`). -/
def civilFromDays (z0 : Int) : Int × Int × Int :=
  let z := z0 + 719468
  let era := z / 146097
  let doe := z - era * 146097
  let yoe := (doe - doe / 1460 + doe / 36524 - doe / 146096) / 365
  let y := yoe + era * 400
  let doy := doe - (365 * yoe + yoe / 4 - yoe / 100)
  let mp := (5 * doy + 2) / 153
  let d := doy - (153 * mp + 2) / 5 + 1
  let m := if mp < 10 then mp + 3 else mp - 9
  (if m ≤ 2 then y + 1 else y, m, d)

/-- Seconds represented by the civil fields of `dt`, ignoring its offset. -/
def civilSeconds (dt : PyDateTime) : Int :=
  daysFromCivil dt.year dt.month dt.day * 86400
    + dt.hour * 3600 + dt.minute * 60 + dt.second

/-- UTC instant of an aware datetime (a naive one is read as UTC, which is
exactly how `to_dict` treats it after `replace(tzinfo=tz.UTC)`). -/
def instantOf (dt : PyDateTime) : Int :=
  civilSeconds dt - (dt.offset.getD 0) * 60

/-- Day of week of an epoch day count, with 0 = Sunday. -/
def weekdaySun0 (z : Int) : Int :=
  (z + 4) % 7

/-- Epoch day of the last Sunday of September of year `y`. -/
def lastSundaySep (y : Int) : Int :=
  let z := daysFromCivil y 9 30
  z - weekdaySun0 z

/-- Epoch day of the first Sunday of April of year `y`. -/
def firstSundayApr (y : Int) : Int :=
  let z := daysFromCivil y 4 1
  z + (7 - weekdaySun0 z) % 7

/-- UTC instant at which NZDT begins in year `y` (02:00 NZST = minus 10h). -/
def nzDstStart (y : Int) : Int :=
  lastSundaySep y * 86400 - 36000

/-- UTC instant at which NZDT ends in year `y` (03:00 NZDT = minus 10h). -/
def nzDstEnd (y : Int) : Int :=
  firstSundayApr y * 86400 - 36000

/-- Is daylight saving in effect in New Zealand at UTC instant `t`? -/
def nzIsDst (t : Int) : Bool :=
  let y := (civilFromDays (t / 86400)).1
  t ≥ nzDstStart y || t < nzDstEnd y

/-- Pacific/Auckland UTC offset in minutes at UTC instant `t`. -/
def nzOffsetMinutes (t : Int) : Int :=
  if nzIsDst t then 780 else 720

/-- Aware datetime with offset `offMin` minutes denoting UTC instant `t`. -/
def dateTimeOfInstant (t : Int) (offMin : Int) : PyDateTime :=
  let ls := t + offMin * 60
  let zday := ls / 86400
  let sod := ls % 86400
  let c := civilFromDays zday
  { year := c.1, month := c.2.1, day := c.2.2,
    hour := sod / 3600, minute := sod / 60 % 60, second := sod % 60,
    offset := some offMin }

/-- Model of `datetime.now(tz.UTC)` at instant `t`. -/
def dateTimeOfInstantUTC (t : Int) : PyDateTime :=
  dateTimeOfInstant t 0

/-- Left-pad a (nonnegative) number to two digits. -/
def pad2 (n : Int) : String :=
  if n < 10 then "0" ++ toString n else toString n

/-- Left-pad a (nonnegative) year to four digits. -/
def pad4 (n : Int) : String :=
  if n < 10 then "000" ++ toString n
  else if n < 100 then "00" ++ toString n
  else if n < 1000 then "0" ++ toString n
  else toString n

/-- Offset part of `datetime.isoformat` output, e.g. `+13:00`. -/
def offsetSuffix (o : Int) : String :=
  let sign := if o < 0 then "-" else "+"
  let a := if o < 0 then -o else o
  sign ++ pad2 (a / 60) ++ ":" ++ pad2 (a % 60)

/-- Model of `datetime.isoformat()` at whole-second precision. -/
def isoOfDateTime (dt : PyDateTime) : String :=
  pad4 dt.year ++ "-" ++ pad2 dt.month ++ "-" ++ pad2 dt.day ++ "T"
    ++ pad2 dt.hour ++ ":" ++ pad2 dt.minute ++ ":" ++ pad2 dt.second
    ++ (match dt.offset with | none => "" | some o => offsetSuffix o)

/-! ## Article data model (`models/article.py`) -/

/-- The `published_date` attribute stored on an `Article`.  A stored string
is classified by what `dateutil.parser.parse` (an external library) does
with it: either it parses to some datetime, or it raises, in which case
`to_dict` falls back to the current UTC time. -/
inductive StoredDate where
  | dt (d : PyDateTime) : StoredDate
  | strParsable (d : PyDateTime) : StoredDate
  | strUnparsable (s : String) : StoredDate

structure Article where
  title : String
  description : String
  url : String
  source : String
  category : String := "General"
  published_date : StoredDate
  content : String := ""
  sentiment_label : String := "neutral"
  sentiment_score : Rat := 0
  sentiment_confidence : Rat := 0
  positive_words : List JValue := []
  negative_words : List JValue := []

/-- Model of `Article.__init__`'s date defaulting, at clock instant `now`:
a missing `published_date` becomes `datetime.now(tz.UTC)`. -/
def Article.make (now : Int) (title description url source : String)
    (category : String := "General")
    (published_date : Option StoredDate := none) : Article :=
  { title := title, description := description, url := url, source := source,
    category := category,
    published_date := published_date.getD (.dt (dateTimeOfInstantUTC now)) }

/-- Normalization of the stored date performed by `Article.to_dict` before
any timezone handling: datetimes and parsable strings give a datetime;
anything else (an unparsable string) gives the current UTC time. -/
def resolvePublished (now : Int) : StoredDate → PyDateTime
  | .dt d => d
  | .strParsable d => d
  | .strUnparsable _ => dateTimeOfInstantUTC now

/-- Model of `if dt.tzinfo is None: dt = dt.replace(tzinfo=tz.UTC)`. -/
def awareAssumeUTC (d : PyDateTime) : PyDateTime :=
  match d.offset with
  | none => { d with offset := some 0 }
  | some _ => d

/-- Model of `dt.astimezone(tz.gettz("Pacific/Auckland"))`. -/
def nzLocalize (d : PyDateTime) : PyDateTime :=
  let t := instantOf d
  dateTimeOfInstant t (nzOffsetMinutes t)

/-- Pacific/Auckland local datetime that `to_dict` serializes for an
article whose stored date is `pd`, at clock instant `now`. -/
def publishedLocal (now : Int) (pd : StoredDate) : PyDateTime :=
  nzLocalize (awareAssumeUTC (resolvePublished now pd))

/-- The `publishedDate` string emitted by `Article.to_dict`. -/
def publishedDateWire (now : Int) (pd : StoredDate) : String :=
  isoOfDateTime (publishedLocal now pd)

/-- Wire-format record produced by `Article.to_dict` (camelCase fields). -/
structure WireArticle where
  title : String
  description : String
  url : String
  source : String
  category : String
  publishedDate : String
  content : String
  sentimentLabel : String
  sentimentScore : Rat
  sentimentConfidence : Rat
  positiveWords : List JValue
  negativeWords : List JValue

/-- Model of `Article.to_dict`, at clock instant `now` (the clock is read
only on the unparsable-date fallback path). -/
def Article.to_dict (a : Article) (now : Int) : WireArticle :=
  { title := a.title, description := a.description, url := a.url,
    source := a.source, category := a.category,
    publishedDate := publishedDateWire now a.published_date,
    content := a.content, sentimentLabel := a.sentiment_label,
    sentimentScore := a.sentiment_score,
    sentimentConfidence := a.sentiment_confidence,
    positiveWords := a.positive_words, negativeWords := a.negative_words }

/-! ## Article submission client (`services/article_service.py`) -/

/-- An HTTP response as seen by `requests`: a status code, the raw body
text, and the result of `response.json()` (`none` models `ValueError`). -/
structure HttpResponse where
  status : Nat
  text : String
  json : Option JValue

/-- Result dictionary of `ArticleService.create_articles_batch`.  The
Python code passes backend-supplied values through unchecked, so the three
slots hold arbitrary JSON values. -/
structure BatchOutcome where
  added : JValue
  skipped : JValue
  errors : JValue

/-- Model of `ArticleService.create_articles_batch`.  The single POST of
the serialized batch is the oracle input: `none` models
`requests.exceptions.RequestException`, `some r` the response received. -/
def create_articles_batch (resp : Option HttpResponse) : BatchOutcome :=
  match resp with
  | none =>
    { added := .num 0, skipped := .num 0, errors := .arr [.str "request exception"] }
  | some r =>
    if r.status = 200 then
      let result : List (String × JValue) :=
        match r.json with
        | some (.obj fields) => fields
        | _ => []
      let added := jGet result "added" (.num 0)
      let skipped := jGet result "skipped" (.num 0)
      let errors0 := jGet result "errors" (.arr [])
      let errors := if jTruthy errors0 then errors0 else .arr []
      { added := added, skipped := skipped, errors := errors }
    else
      { added := .num 0, skipped := .num 0,
        errors := .arr [.str (pyTruncate r.text)] }

/-! ## Sentiment enrichment (`services/sentiment_analyzer.py`)

The Hugging Face inference client is the oracle: `cls` models
`_client.text_classification` (`none` = the call raised), `gen` models
`_client.text_generation`, and `jparse` models `json.loads` on the brace
substring found by `_parse_json_block`. -/

/-- Transliteration of `_STOP_WORDS`. -/
def stopWords : List String :=
  ["the", "and", "for", "that", "with", "this", "from", "have", "has", "had",
   "were", "was", "are", "is", "but", "not", "you", "your", "their", "they",
   "them", "our", "ours", "its", "his", "her", "him", "she", "who", "what",
   "when", "where", "why", "how", "after", "before", "into", "onto", "over",
   "under", "about", "between", "against", "during", "while", "would",
   "could", "should", "will", "just", "than", "then", "there", "here",
   "also", "more", "most", "some", "such", "only", "very", "much", "many",
   "few", "all", "any", "each", "both", "news", "said", "says", "say",
   "new", "report", "reports", "today", "yesterday", "tomorrow", "committee"]

/-- Is `c` an ASCII letter (the class `[a-zA-Z]` of `_WORD_RE`)? -/
def isAlphaA (c : Char) : Bool :=
  isLowerA c || isUpperA c

/-- Continuation characters of `_WORD_RE`, the class `[a-zA-Z'-]`
(character 39 is the apostrophe). -/
def isWordTail (c : Char) : Bool :=
  isAlphaA c || c == '-' || c == Char.ofNat 39

/-- Scanner behind `findTokens`, structurally recursive on a fuel bound
(one unit per character, so `cs.length` fuel always completes the scan):
left-to-right, non-overlapping, greedy matches of an ASCII letter followed
by two or more word-tail characters. -/
def findTokensAux : Nat → List Char → List (List Char)
  | 0, _ => []
  | _, [] => []
  | fuel + 1, c :: rest =>
    if isAlphaA c then
      let tl := rest.takeWhile isWordTail
      if 2 ≤ tl.length then
        (c :: tl) :: findTokensAux fuel (rest.drop tl.length)
      else findTokensAux fuel rest
    else findTokensAux fuel rest

/-- Model of `_WORD_RE.findall`. -/
def findTokens (cs : List Char) : List (List Char) :=
  findTokensAux cs.length cs

/-- Word tokens of `text.lower()` as Python strings. -/
def pyWordTokens (text : String) : List String :=
  (findTokens (text.data.map asciiLower)).map (fun cs => String.mk cs)

/-- Skip stop words and words already seen, keeping first-occurrence
order (the body of the `_extract_candidate_words` loop). -/
def candLoop : List String → List String → List String
  | [], _ => []
  | w :: ws, seen =>
    if stopWords.contains w then candLoop ws seen
    else if seen.contains w then candLoop ws seen
    else w :: candLoop ws (w :: seen)

/-- Model of `_extract_candidate_words`. -/
def _extract_candidate_words (text : String) (limit : Nat := 30) : List String :=
  (candLoop (pyWordTokens text) []).take limit

/-- One ranked item returned by `text_classification`. -/
structure ClassItem where
  label : String
  score : Rat

/-- Stable insertion into a score-descending list (equal scores keep the
insertion-time order, matching Python's stable `list.sort`). -/
def insertDesc (x : Rat × String) : List (Rat × String) → List (Rat × String)
  | [] => [x]
  | y :: ys => if y.1 ≤ x.1 then x :: y :: ys else y :: insertDesc x ys

/-- Stable sort by score descending, as done by
`sort(key=lambda item: item[0], reverse=True)`. -/
def sortDescRanked (l : List (Rat × String)) : List (Rat × String) :=
  l.foldr insertDesc []

/-- Candidate words classified with label `want` at confidence at least
0.6 (written `mkRat 6 10`), with their confidences (one arm of the
per-word loop). -/
def rankedFor (cls : String → Option (List ClassItem)) (want : String)
    (cands : List String) : List (Rat × String) :=
  cands.filterMap (fun w =>
    match cls w with
    | none => none
    | some [] => none
    | some (top :: _) =>
      if top.score < mkRat 6 10 then none
      else if asciiLowerStr top.label == want then some (top.score, w)
      else none)

/-- Model of `_classify_words_with_sentiment_model`. -/
def _classify_words_with_sentiment_model
    (cls : String → Option (List ClassItem)) (text : String) :
    List String × List String :=
  let cands := _extract_candidate_words text
  let pos := sortDescRanked (rankedFor cls "positive" cands)
  let neg := sortDescRanked (rankedFor cls "negative" cands)
  ((pos.take 8).map (fun p => p.2), (neg.take 8).map (fun p => p.2))

/-- The substring matched by `re.search(r"\x7b.*\x7d", text, re.DOTALL)`:
from the first opening brace to the last closing brace (greedy), if the
latter comes after the former. -/
def braceSlice (cs : List Char) : Option (List Char) :=
  match cs.findIdx? (fun c => c == Char.ofNat 123) with
  | none => none
  | some i =>
    match cs.reverse.findIdx? (fun c => c == Char.ofNat 125) with
    | none => none
    | some jr =>
      let j := cs.length - 1 - jr
      if i < j then some ((cs.drop i).take (j - i + 1)) else none

/-- Model of `_parse_json_block`: decode the brace substring, tolerating a
missing match, a decode error or a non-object result as `{}`. -/
def _parse_json_block (jparse : String → Option JValue) (text : String) :
    List (String × JValue) :=
  match braceSlice text.data with
  | none => []
  | some sub =>
    match jparse (String.mk sub) with
    | some (.obj fs) => fs
    | _ => []

/-- The prompt string sent to the extraction model. -/
def extraction_prompt (text : String) : String :=
  "Extract sentiment-bearing words from this news text.\n"
    ++ "Return STRICT JSON only with keys: positive_words, negative_words.\n"
    ++ "Each value must be an array of unique lowercase words.\n\n"
    ++ "TEXT: " ++ text

/-- The structured term-extraction step (step 2 of the cascade): prompt
the generative model, parse its JSON tolerantly and dedup each list with
`dict.fromkeys`.  A `TypeError` while deduplicating the first list leaves
both empty; one during the second keeps the first (Python assigns the two
variables in sequence inside one `suppress` block). -/
def structured_terms (gen : String → Option String)
    (jparse : String → Option JValue) (text : String) :
    List JValue × List JValue :=
  match gen (extraction_prompt text) with
  | none => ([], [])
  | some g =>
    let data := _parse_json_block jparse g
    match pyFromkeys (jGet data "positive_words" (.arr [])) with
    | none => ([], [])
    | some pos =>
      match pyFromkeys (jGet data "negative_words" (.arr [])) with
      | none => (pos, [])
      | some neg => (pos, neg)

/-- Result record of `analyze_text_sentiment_and_terms`. -/
structure SentimentTerms where
  label : String := "neutral"
  score : Rat := 0
  confidence : Rat := 0
  positive_words : List JValue := []
  negative_words : List JValue := []

/-- The word-selection cascade of `analyze_text_sentiment_and_terms`:
take the structured-extraction lists, falling back to per-word
classification only when both are empty. -/
def cascade_words (cls : String → Option (List ClassItem))
    (gen : String → Option String) (jparse : String → Option JValue)
    (text : String) : List JValue × List JValue :=
  let st := structured_terms gen jparse text
  if st.1.isEmpty && st.2.isEmpty then
    let fb := _classify_words_with_sentiment_model cls text
    (fb.1.map (fun w => .str w), fb.2.map (fun w => .str w))
  else st

/-- Model of `analyze_text_sentiment_and_terms`: classify the combined
text (defaults on failure), attempt structured extraction, and fall back
to per-word classification only when both structured lists are empty. -/
def analyze_text_sentiment_and_terms
    (cls : String → Option (List ClassItem)) (gen : String → Option String)
    (jparse : String → Option JValue)
    (title : String) (description : String := "") : SentimentTerms :=
  let text := pyStrip (pyStrip title ++ " " ++ pyStrip description)
  if text = "" then {} else
  let sent : String × Rat × Rat :=
    match cls text with
    | none => ("neutral", 0, 0)
    | some [] => ("neutral", 0, 0)
    | some (top :: _) => (asciiLowerStr top.label, top.score, top.score)
  let words := cascade_words cls gen jparse text
  { label := sent.1, score := sent.2.1, confidence := sent.2.2,
    positive_words := words.1, negative_words := words.2 }

/-! ## Orchestrator (`main.py`) -/

/-- Model of the `SCRAPE_EXTRACT_CONTENT` gate in `scrape_all`:
`extract_flag = os.getenv('SCRAPE_EXTRACT_CONTENT', '1')` followed by
`if extract_flag and extract_flag.lower() not in ('0', 'false', 'no')`.
The input is the raw environment value (`none` = variable unset). -/
def extract_content_enabled (env : Option String) : Bool :=
  let flag := env.getD "1"
  strTruthy flag && !(["0", "false", "no"].contains (asciiLowerStr flag))

/-- Per-article content-extraction step of `scrape_all` (lines guarded by
the gate): skip articles whose `content` is already truthy, otherwise call
`extract_content` — `none` models both a raised exception and a `None`
return — and keep the article unchanged unless a truthy string came back. -/
def content_step (extract : String → Option String) (a : Article) : Article :=
  if strTruthy a.content then a
  else
    match extract a.url with
    | none => a
    | some c => if strTruthy c then { a with content := c } else a

/-- Per-article sentiment mutation of `scrape_all` (the five assignments
`art.sentiment_label = ...` through `art.negative_words = ...`). -/
def apply_sentiment (s : SentimentTerms) (a : Article) : Article :=
  { a with
    sentiment_label := s.label
    sentiment_score := s.score
    sentiment_confidence := s.confidence
    positive_words := s.positive_words
    negative_words := s.negative_words }

/-- The three aggregate counters returned by `scrape_all`. -/
structure RunTotals where
  scraped : Nat
  added : Nat
  skipped : Nat
deriving DecidableEq

/-- Integer `added`/`skipped` counts of one batch response, as specified
for the backend interface (`POST .../batch` returns integer counts). -/
structure BatchCounts where
  added : Nat
  skipped : Nat

/-- The observable behaviour of one scraper iteration of `scrape_all`:
`outcome = none` models `scrape()` raising an exception, `some articles`
a normal return; `batch` holds the counts the submission client reports
for this scraper's batch (unused when the scraper raises or returns no
articles, since no batch is submitted then). -/
structure ScraperRun where
  outcome : Option (List Article)
  batch : BatchCounts

/-- One iteration of the `for scraper in self.scrapers` loop, updating the
three counters: a raised exception is logged and skipped, an empty result
only logs a warning, and otherwise `scraped += len(articles)`,
`added += result.get('added', 0)`, `skipped += result.get('skipped', 0)`. -/
def scrapeStep (acc : RunTotals) (s : ScraperRun) : RunTotals :=
  match s.outcome with
  | none => acc
  | some arts =>
    if arts.isEmpty then acc
    else { scraped := acc.scraped + arts.length,
           added := acc.added + s.batch.added,
           skipped := acc.skipped + s.batch.skipped }

/-- Model of `ScraperOrchestrator.scrape_all`'s counter aggregation over
the registered scrapers, in order. -/
def scrape_all (runs : List ScraperRun) : RunTotals :=
  runs.foldl scrapeStep ⟨0, 0, 0⟩

/-- Totals contributed by a single scraper iteration. -/
def runContribution (s : ScraperRun) : RunTotals :=
  match s.outcome with
  | none => ⟨0, 0, 0⟩
  | some arts =>
    if arts.isEmpty then ⟨0, 0, 0⟩
    else ⟨arts.length, s.batch.added, s.batch.skipped⟩

/-- Componentwise sum of totals. -/
def addTotals (x y : RunTotals) : RunTotals :=
  ⟨x.scraped + y.scraped, x.added + y.added, x.skipped + y.skipped⟩

/-- Sum of the per-scraper contributions of a run list. -/
def sumContributions (l : List ScraperRun) : RunTotals :=
  l.foldr (fun s acc => addTotals (runContribution s) acc) ⟨0, 0, 0⟩

/-- Did this scraper iteration not raise? -/
def runNotRaising (s : ScraperRun) : Bool :=
  !s.outcome.isNone

/-! ## Source scrapers (`scrapers/*.py`)

A feed entry is what `feedparser` hands back: optional `title`, `link` and
`summary` keys, an optional parsed time tuple, and (for the Google News
feed) the entry's link list, each element carrying a `url` key or not. -/

structure FeedEntry where
  title : Option String := none
  link : Option String := none
  summary : Option String := none
  published_parsed : Option (List Int) := none
  links : List (Option String) := []

/-- Gregorian leap year test (as `datetime` validates the day). -/
def isLeapYear (y : Int) : Bool :=
  (y % 4 == 0 && y % 100 != 0) || y % 400 == 0

/-- Days in a month, for `datetime`'s range validation. -/
def daysInMonth (y m : Int) : Int :=
  if m = 2 then (if isLeapYear y then 29 else 28)
  else if m = 4 || m = 6 || m = 9 || m = 11 then 30
  else 31

/-- Model of `datetime(*tuple[:6])` on a `feedparser` 9-tuple: `none` when
the constructor would raise (out-of-range field), otherwise the naive
datetime (the scrapers immediately take its `isoformat()` string). -/
def parseTimeTuple (t : List Int) : Option PyDateTime :=
  match t.take 6 with
  | [y, mo, d, h, mi, s] =>
    if 1 ≤ y && y ≤ 9999 && 1 ≤ mo && mo ≤ 12 && 1 ≤ d && d ≤ daysInMonth y mo
        && 0 ≤ h && h < 24 && 0 ≤ mi && mi < 60 && 0 ≤ s && s < 60 then
      some { year := y, month := mo, day := d, hour := h, minute := mi,
             second := s, offset := none }
    else none
  | _ => none

/-- The `pub_date` a feed scraper stores: the `isoformat()` string of the
entry's parsed time tuple when present and valid, else absent.  The stored
string parses back with `dateutil` to the same naive datetime. -/
def entryPubDate (e : FeedEntry) : Option StoredDate :=
  match e.published_parsed with
  | none => none
  | some t =>
    match parseTimeTuple t with
    | none => none
    | some d => some (.strParsable d)

/-- Category rules of `StuffScraper.scrape` (first match wins). -/
def stuffCategory (url : String) : String :=
  if strContains url "/nz-news/" then "NZ News"
  else if strContains url "/world/" then "World"
  else if strContains url "/sport/" then "Sport"
  else if strContains url "/business/" then "Business"
  else if strContains url "/entertainment/" then "Entertainment"
  else "General"

/-- Per-entry body of the `StuffScraper.scrape` loop. -/
def stuffEntryArticle (now : Int) (e : FeedEntry) : Option Article :=
  let title := pyStrip (e.title.getD "")
  let url := pyStrip (e.link.getD "")
  if title = "" || url = "" then none
  else
    let description := pyStrip (e.summary.getD title)
    some (Article.make now title description url "Stuff NZ"
      (stuffCategory url) (entryPubDate e))

/-- Model of `StuffScraper.scrape` (`none` feed = fetch/parse failure;
the loop is hard-limited to the 20 most recent entries). -/
def stuff_scrape (now : Int) (feed : Option (List FeedEntry)) : List Article :=
  match feed with
  | none => []
  | some entries => (entries.take 20).filterMap (stuffEntryArticle now)

/-- Category rules of `RNZScraper.scrape`. -/
def rnzCategory (url : String) : String :=
  if strContains url "/national/" then "National"
  else if strContains url "/world/" then "World"
  else if strContains url "/political/" then "Politics"
  else if strContains url "/business/" then "Business"
  else if strContains url "/sport/" then "Sport"
  else "News"

/-- Per-entry body of the `RNZScraper.scrape` loop; `stripHtml` models
`BeautifulSoup(...).get_text(strip=True)`, applied only when the summary
contains a `<`. -/
def rnzEntryArticle (now : Int) (stripHtml : String → String) (e : FeedEntry) :
    Option Article :=
  let title := pyStrip (e.title.getD "")
  let url := pyStrip (e.link.getD "")
  if title = "" || url = "" then none
  else
    let d0 := pyStrip (e.summary.getD title)
    let description := if strContains d0 "<" then stripHtml d0 else d0
    some (Article.make now title description url "RNZ"
      (rnzCategory url) (entryPubDate e))

/-- Model of `RNZScraper.scrape`. -/
def rnz_scrape (now : Int) (stripHtml : String → String)
    (feed : Option (List FeedEntry)) : List Article :=
  match feed with
  | none => []
  | some entries => (entries.take 20).filterMap (rnzEntryArticle now stripHtml)

/-- Redirect resolution of `OneNewsScraper.scrape`: a Google News URL is
replaced by the first entry link whose `url` value mentions the target
domain. -/
def onenewsResolveUrl (url : String) (links : List (Option String)) : String :=
  if strContains url "news.google.com" then
    match links.find? (fun l =>
        match l with
        | some u => strContains u "1news.co.nz"
        | none => false) with
    | some (some u) => u
    | _ => url
  else url

/-- Category rules of `OneNewsScraper.scrape`. -/
def onenewsCategory (url : String) : String :=
  if strContains url "/new-zealand/" then "New Zealand"
  else if strContains url "/world/" then "World"
  else if strContains url "/politics/" then "Politics"
  else if strContains url "/sport/" then "Sport"
  else "Latest"

/-- Per-entry body of the `OneNewsScraper.scrape` loop. -/
def onenewsEntryArticle (now : Int) (stripHtml : String → String)
    (e : FeedEntry) : Option Article :=
  let title := pyStrip (e.title.getD "")
  let url0 := pyStrip (e.link.getD "")
  if title = "" || url0 = "" then none
  else
    let url := onenewsResolveUrl url0 e.links
    let d0 := pyStrip (e.summary.getD title)
    let description := if strContains d0 "<" then stripHtml d0 else d0
    some (Article.make now title description url "1News NZ"
      (onenewsCategory url) (entryPubDate e))

/-- Model of `OneNewsScraper.scrape`. -/
def onenews_scrape (now : Int) (stripHtml : String → String)
    (feed : Option (List FeedEntry)) : List Article :=
  match feed with
  | none => []
  | some entries => (entries.take 20).filterMap (onenewsEntryArticle now stripHtml)

/-- The `BaseScraper` default article cap, used by `NZHeraldScraper`
through `self.max_articles`. -/
def base_default_max_articles : Nat := 20

/-- The `for article_elem in article_elements` loop of
`NZHeraldScraper.scrape`: stop at the cap, extract per element (the
extractor models `_extract_article_from_element`, whose HTML heuristics
run inside BeautifulSoup), and dedup by URL within the page. -/
def heraldLoop {α : Type} (extract : α → Option Article) :
    List α → List Article → List String → List Article
  | [], acc, _ => acc
  | e :: es, acc, seen =>
    if base_default_max_articles ≤ acc.length then acc
    else
      match extract e with
      | none => heraldLoop extract es acc seen
      | some a =>
        if seen.contains a.url then heraldLoop extract es acc seen
        else heraldLoop extract es (acc ++ [a]) (seen ++ [a.url])

/-- Model of `NZHeraldScraper.scrape` (`none` page = network failure or
`raise_for_status`; an empty element list returns no articles). -/
def nzherald_scrape {α : Type} (extract : α → Option Article)
    (page : Option (List α)) : List Article :=
  match page with
  | none => []
  | some elems => heraldLoop extract elems [] []

/-! ## Helper lemmas -/

/-- Looking up a key that is not present yields the default. -/
theorem jGet_of_not_has (fields : List (String × JValue)) (key : String)
    (dflt : JValue) (h : jHas fields key = false) :
    jGet fields key dflt = dflt := by
  unfold jGet
  have : fields.reverse.find? (fun p => p.1 == key) = none := by
    rw [List.find?_eq_none]
    intro p hp
    have hmem : p ∈ fields := List.mem_reverse.mp hp
    have := List.any_eq_false.mp h p hmem
    simpa using this
  rw [this]

/-! ## Claim C7 -/

/-- Counterexample to claim C7 (content-extraction toggle).  The claim
says extraction is disabled exactly for the values `0`, `false`, `no`, and
enabled for any other value; but `SCRAPE_EXTRACT_CONTENT` set to the empty
string also disables it (the empty string is falsy, so the guard
`if extract_flag and ...` fails). -/
theorem C7_toggle_counterexample :
    extract_content_enabled (some "") = false ∧
    "" ≠ "0" ∧ "" ≠ "false" ∧ "" ≠ "no" := by
  refine ⟨rfl, ?_, ?_, ?_⟩ <;> decide

/-- Claim C7, amended: content extraction is disabled exactly when the
toggle is set and its value is empty or lowercases to one of `0`, `false`,
`no`; any other value, including the variable being unset, enables it. -/
theorem C7_toggle_amended (env : Option String) :
    extract_content_enabled env = false ↔
      ∃ s, env = some s ∧
        (s = "" ∨ asciiLowerStr s = "0" ∨ asciiLowerStr s = "false" ∨
          asciiLowerStr s = "no") := by
  cases env with
  | none =>
    constructor
    · intro h
      exact absurd h (by decide)
    · rintro ⟨s, hs, -⟩
      exact Option.noConfusion hs
  | some s =>
    have hdef : extract_content_enabled (some s)
        = (strTruthy s && !(["0", "false", "no"].contains (asciiLowerStr s))) := rfl
    rw [hdef]
    simp [strTruthy, Bool.and_eq_false_iff, or_assoc]
    tauto

/-! ## Claim C9 -/

/-- Claim C9: sentiment enrichment never touches `content`; the
content-extraction step leaves an article with non-empty content entirely
unchanged (extraction is not even consulted); a failed extraction (raise
or `None`) leaves `content` unchanged; and a successful extraction on an
empty-content article stores the extracted text. -/
theorem C9_content_frame (extract : String → Option String) (a : Article)
    (s : SentimentTerms) :
    ((apply_sentiment s a).content = a.content) ∧
    (a.content ≠ "" → content_step extract a = a) ∧
    (extract a.url = none → (content_step extract a).content = a.content) ∧
    (a.content = "" → ∀ c, extract a.url = some c → c ≠ "" →
      (content_step extract a).content = c) := by
  refine ⟨rfl, ?_, ?_, ?_⟩
  · intro h
    simp [content_step, strTruthy, h]
  · intro h
    by_cases hc : a.content = ""
    · simp [content_step, strTruthy, hc, h]
    · simp [content_step, strTruthy, hc]
  · intro h c hc hne
    simp [content_step, strTruthy, h, hc, hne]

/-- Witness for C9 at concrete articles: existing content survives even
with a would-be extractor result, and empty content is filled in. -/
theorem C9_witness :
    content_step (fun _ => some "body")
        { title := "t", description := "d", url := "u", source := "s",
          published_date := .dt ⟨2024, 1, 1, 0, 0, 0, some 0⟩,
          content := "existing" }
      = { title := "t", description := "d", url := "u", source := "s",
          published_date := .dt ⟨2024, 1, 1, 0, 0, 0, some 0⟩,
          content := "existing" } ∧
    (content_step (fun _ => some "body")
        { title := "t", description := "d", url := "u", source := "s",
          published_date := .dt ⟨2024, 1, 1, 0, 0, 0, some 0⟩ }).content
      = "body" := by
  constructor
  · exact (C9_content_frame (fun _ => some "body")
      { title := "t", description := "d", url := "u", source := "s",
        published_date := .dt ⟨2024, 1, 1, 0, 0, 0, some 0⟩,
        content := "existing" } {}).2.1 (by decide)
  · exact (C9_content_frame (fun _ => some "body")
      { title := "t", description := "d", url := "u", source := "s",
        published_date := .dt ⟨2024, 1, 1, 0, 0, 0, some 0⟩ } {}).2.2.2
      rfl "body" rfl (by decide)

/-! ## Claim C2 -/

/-- Claim C2: the batch submission result as a function of the single
HTTP exchange.  A 200 response decoding to an object passes the three
fields through unmodified; a 200 response whose body is unparsable or not
an object yields the all-zero/empty result; a non-200 status yields zero
counts and a single error entry holding the truncated body; a transport
failure yields zero counts and the sentinel entry.  Totality of the model
function reflects that the Python method catches its only failure source
(`requests.exceptions.RequestException`) and never raises to its caller. -/
theorem C2_batch_contract (resp : Option HttpResponse) :
    (resp = none →
      create_articles_batch resp =
        ⟨.num 0, .num 0, .arr [.str "request exception"]⟩) ∧
    (∀ r, resp = some r → r.status = 200 → ∀ fields,
      r.json = some (.obj fields) →
      ∀ a s es, jGet fields "added" (.num 0) = .num a →
        jGet fields "skipped" (.num 0) = .num s →
        jGet fields "errors" (.arr []) = .arr es →
        create_articles_batch resp = ⟨.num a, .num s, .arr es⟩) ∧
    (∀ r, resp = some r → r.status = 200 →
      (∀ fields, r.json ≠ some (.obj fields)) →
      create_articles_batch resp = ⟨.num 0, .num 0, .arr []⟩) ∧
    (∀ r, resp = some r → r.status ≠ 200 →
      create_articles_batch resp =
        ⟨.num 0, .num 0, .arr [.str (pyTruncate r.text)]⟩) := by
  refine ⟨?_, ?_, ?_, ?_⟩
  · rintro rfl
    rfl
  · rintro r rfl h200 fields hjson a s es ha hs he
    simp only [create_articles_batch, h200, if_pos, hjson, ha, hs, he]
    cases es with
    | nil => rfl
    | cons e es => rfl
  · rintro r rfl h200 hng
    cases hj : r.json with
    | none => simp [create_articles_batch, h200, hj, jGet, jTruthy]
    | some v =>
      cases v with
      | obj fields => exact absurd hj (hng fields)
      | null => simp [create_articles_batch, h200, hj, jGet, jTruthy]
      | bool b => simp [create_articles_batch, h200, hj, jGet, jTruthy]
      | num n => simp [create_articles_batch, h200, hj, jGet, jTruthy]
      | str s => simp [create_articles_batch, h200, hj, jGet, jTruthy]
      | arr xs => simp [create_articles_batch, h200, hj, jGet, jTruthy]
  · rintro r rfl hne
    simp [create_articles_batch, hne]

/-- Witness for C2: the spec's own test vectors.  A mock 200 response
with `added 3 / skipped 2 / errors ["dup:x"]` is returned unmodified, and
a 500 response yields the truncated-body error entry. -/
theorem C2_witness :
    create_articles_batch (some ⟨200, "ok",
        some (.obj [("added", .num 3), ("skipped", .num 2),
          ("errors", .arr [.str "dup:x"])])⟩)
      = ⟨.num 3, .num 2, .arr [.str "dup:x"]⟩ ∧
    create_articles_batch (some ⟨500, "Internal Server Error", none⟩)
      = ⟨.num 0, .num 0, .arr [.str (pyTruncate "Internal Server Error")]⟩ := by
  constructor
  · exact (C2_batch_contract (some ⟨200, "ok",
        some (.obj [("added", .num 3), ("skipped", .num 2),
          ("errors", .arr [.str "dup:x"])])⟩)).2.1
      ⟨200, "ok", some (.obj [("added", .num 3), ("skipped", .num 2),
        ("errors", .arr [.str "dup:x"])])⟩ rfl rfl
      [("added", .num 3), ("skipped", .num 2),
        ("errors", .arr [.str "dup:x"])] rfl 3 2 [.str "dup:x"] rfl rfl rfl
  · exact (C2_batch_contract (some ⟨500, "Internal Server Error", none⟩)).2.2.2
      ⟨500, "Internal Server Error", none⟩ rfl (by decide)

/-! ## Claim C10 -/

/-- Claim C10: on a 200 response decoding to a JSON object, a missing
`added` or `skipped` comes back as 0, a missing or `null` `errors` comes
back as the empty list, and the returned `errors` value is never `null`. -/
theorem C10_batch_defaults (r : HttpResponse)
    (fields : List (String × JValue))
    (h200 : r.status = 200) (hjson : r.json = some (.obj fields)) :
    (jHas fields "added" = false →
      (create_articles_batch (some r)).added = .num 0) ∧
    (jHas fields "skipped" = false →
      (create_articles_batch (some r)).skipped = .num 0) ∧
    (jHas fields "errors" = false →
      (create_articles_batch (some r)).errors = .arr []) ∧
    (jGet fields "errors" (.arr []) = .null →
      (create_articles_batch (some r)).errors = .arr []) ∧
    (create_articles_batch (some r)).errors ≠ .null := by
  refine ⟨?_, ?_, ?_, ?_, ?_⟩
  · intro h
    simp [create_articles_batch, h200, hjson, jGet_of_not_has _ _ _ h]
  · intro h
    simp [create_articles_batch, h200, hjson, jGet_of_not_has _ _ _ h]
  · intro h
    simp [create_articles_batch, h200, hjson, jGet_of_not_has _ _ _ h, jTruthy]
  · intro h
    simp [create_articles_batch, h200, hjson, h, jTruthy]
  · simp only [create_articles_batch, h200, if_pos, hjson]
    cases he : jGet fields "errors" (.arr []) with
    | null => simp [he, jTruthy]
    | bool b => cases b <;> simp [he, jTruthy]
    | num n => by_cases hn : n = 0 <;> simp [he, jTruthy, hn]
    | str s => by_cases hs : s = "" <;> simp [he, jTruthy, hs]
    | arr xs => cases xs <;> simp [he, jTruthy]
    | obj fs => cases fs <;> simp [he, jTruthy]

/-- Witness for C10 at the concrete empty-object 200 response. -/
theorem C10_witness :
    (create_articles_batch (some ⟨200, "", some (.obj [])⟩)).added = .num 0 ∧
    (create_articles_batch (some ⟨200, "", some (.obj [])⟩)).skipped = .num 0 ∧
    (create_articles_batch (some ⟨200, "", some (.obj [])⟩)).errors = .arr [] ∧
    (create_articles_batch (some ⟨200, "", some (.obj [])⟩)).errors ≠ .null := by
  have h := C10_batch_defaults ⟨200, "", some (.obj [])⟩ [] rfl rfl
  exact ⟨h.1 rfl, h.2.1 rfl, h.2.2.1 rfl, h.2.2.2.2⟩

/-! ## Claim C8 -/

set_option maxRecDepth 8192 in
set_option maxHeartbeats 1000000 in
/-- Counterexample to claim C8 (`to_dict` idempotence regardless of the
stored date's parsability): with an unparsable stored date string,
`to_dict` falls back to `datetime.now()`, so two calls of the same
unmutated article at different clock instants produce different
`publishedDate` strings, hence non-identical output. -/
theorem C8_idempotence_counterexample :
    (Article.to_dict
        { title := "t", description := "d", url := "u", source := "s",
          published_date := .strUnparsable "not a date" } 0).publishedDate
      ≠ (Article.to_dict
        { title := "t", description := "d", url := "u", source := "s",
          published_date := .strUnparsable "not a date" } 86400).publishedDate := by
  decide

/-- Claim C8, amended: `to_dict` output is byte-identical across repeated
calls whenever the stored published date is a datetime or a parsable
string — that is, whenever the `datetime.now()` fallback for unparsable
dates is not taken; the fallback path is the sole source of
non-determinism. -/
theorem C8_to_dict_deterministic (a : Article) (d : PyDateTime)
    (now now' : Int)
    (h : a.published_date = .dt d ∨ a.published_date = .strParsable d) :
    Article.to_dict a now = Article.to_dict a now' := by
  rcases h with h | h <;>
    simp [Article.to_dict, publishedDateWire, publishedLocal,
      resolvePublished, h]

/-- Witness for the amended C8 at a concrete aware-datetime article. -/
theorem C8_witness :
    Article.to_dict
        { title := "t", description := "d", url := "u", source := "s",
          published_date := .dt ⟨2024, 1, 1, 0, 0, 0, some 0⟩ } 0
      = Article.to_dict
        { title := "t", description := "d", url := "u", source := "s",
          published_date := .dt ⟨2024, 1, 1, 0, 0, 0, some 0⟩ } 12345 :=
  C8_to_dict_deterministic _ ⟨2024, 1, 1, 0, 0, 0, some 0⟩ 0 12345 (Or.inl rfl)

/-! ## Claim C3 -/

set_option maxRecDepth 8192 in
set_option maxHeartbeats 1000000 in
/-- Claim C3: `to_dict` serializes `publishedDate` in Pacific/Auckland
with an explicit offset.  The UTC-aware instant 2024-01-01T00:00:00Z
serializes to `2024-01-01T13:00:00+13:00` (NZDT), a non-DST date gets
`+12:00`, a naive stored datetime is treated as UTC, an unparsable stored
string falls back to the current UTC time, and the serialized local
datetime always carries offset +13:00 or +12:00. -/
theorem C3_published_date_tz (a : Article) (now : Int) (d : PyDateTime)
    (s : String) :
    ((Article.to_dict a now).publishedDate
      = publishedDateWire now a.published_date) ∧
    (publishedDateWire now (.dt ⟨2024, 1, 1, 0, 0, 0, some 0⟩)
      = "2024-01-01T13:00:00+13:00") ∧
    (publishedDateWire now (.dt ⟨2024, 6, 1, 0, 0, 0, some 0⟩)
      = "2024-06-01T12:00:00+12:00") ∧
    (publishedDateWire now (.dt { d with offset := none })
      = publishedDateWire now (.dt { d with offset := some 0 })) ∧
    (publishedDateWire now (.strUnparsable s)
      = publishedDateWire now (.dt (dateTimeOfInstantUTC now))) ∧
    ((publishedLocal now a.published_date).offset = some 780 ∨
      (publishedLocal now a.published_date).offset = some 720) := by
  refine ⟨rfl, ?_, ?_, ?_, rfl, ?_⟩
  · have key : publishedDateWire now (.dt ⟨2024, 1, 1, 0, 0, 0, some 0⟩)
        = publishedDateWire 0 (.dt ⟨2024, 1, 1, 0, 0, 0, some 0⟩) := rfl
    rw [key]
    decide
  · have key : publishedDateWire now (.dt ⟨2024, 6, 1, 0, 0, 0, some 0⟩)
        = publishedDateWire 0 (.dt ⟨2024, 6, 1, 0, 0, 0, some 0⟩) := rfl
    rw [key]
    decide
  · simp [publishedDateWire, publishedLocal, resolvePublished, awareAssumeUTC]
  unfold publishedLocal nzLocalize dateTimeOfInstant nzOffsetMinutes
  by_cases hdst :
      nzIsDst (instantOf (awareAssumeUTC (resolvePublished now a.published_date)))
  · left
    simp [hdst]
  · right
    simp [hdst]

/-! ## Claim C1 -/

/-- One loop iteration adds exactly the iteration's contribution. -/
theorem scrapeStep_eq (acc : RunTotals) (s : ScraperRun) :
    scrapeStep acc s = addTotals acc (runContribution s) := by
  obtain ⟨o, b⟩ := s
  cases o with
  | none =>
    cases acc
    simp [scrapeStep, runContribution, addTotals]
  | some arts =>
    cases acc
    by_cases h : arts.isEmpty <;>
      simp [scrapeStep, runContribution, addTotals, h]

/-- Totals addition is associative. -/
theorem addTotals_assoc (x y z : RunTotals) :
    addTotals (addTotals x y) z = addTotals x (addTotals y z) := by
  simp [addTotals, Nat.add_assoc]

/-- Zero totals are a right identity. -/
theorem addTotals_zero_right (x : RunTotals) : addTotals x ⟨0, 0, 0⟩ = x := by
  cases x
  simp [addTotals]

/-- Zero totals are a left identity. -/
theorem addTotals_zero_left (x : RunTotals) : addTotals ⟨0, 0, 0⟩ x = x := by
  cases x
  simp [addTotals]

/-- The loop of `scrape_all`, started from any accumulator, adds the sum
of the per-scraper contributions. -/
theorem foldl_scrapeStep (acc : RunTotals) (l : List ScraperRun) :
    l.foldl scrapeStep acc = addTotals acc (sumContributions l) := by
  induction l generalizing acc with
  | nil => simp [sumContributions, addTotals_zero_right]
  | cons s rest ih =>
    simp only [List.foldl_cons, sumContributions, List.foldr_cons]
    rw [scrapeStep_eq, ih, addTotals_assoc]
    rfl

/-- The counters of a run equal the sum of per-scraper contributions. -/
theorem scrape_all_eq_sum (runs : List ScraperRun) :
    scrape_all runs = sumContributions runs := by
  rw [scrape_all, foldl_scrapeStep, addTotals_zero_left]

/-- Contribution sums decompose over concatenation. -/
theorem sumContributions_append (l1 l2 : List ScraperRun) :
    sumContributions (l1 ++ l2)
      = addTotals (sumContributions l1) (sumContributions l2) := by
  induction l1 with
  | nil => simp [sumContributions, addTotals_zero_left]
  | cons s rest ih =>
    simp only [List.cons_append, sumContributions, List.foldr_cons] at *
    rw [ih, addTotals_assoc]

/-- Raising scrapers contribute nothing to the sums. -/
theorem sumContributions_filter (l : List ScraperRun) :
    sumContributions (l.filter runNotRaising) = sumContributions l := by
  induction l with
  | nil => rfl
  | cons s rest ih =>
    by_cases h : runNotRaising s
    · rw [List.filter_cons_of_pos h]
      simp only [sumContributions, List.foldr_cons] at *
      rw [ih]
    · rw [List.filter_cons_of_neg h]
      have ho : s.outcome = none := by
        simpa [runNotRaising, Option.isNone_iff_eq_none] using h
      simp only [sumContributions, List.foldr_cons] at *
      rw [ih]
      show sumContributions rest
        = addTotals (runContribution s) (sumContributions rest)
      rw [runContribution, ho, addTotals_zero_left]

/-- Claim C1: if one scraper's `scrape()` raises, the run finishes with
exactly the totals of the same run without that scraper (so every other
scraper is still processed), the raising scraper contributes zero to all
three counters, and the returned counters are the sums accumulated over
the non-raising scrapers. -/
theorem C1_orchestrator_resilience (pre post : List ScraperRun)
    (s : ScraperRun) (h : s.outcome = none) :
    scrape_all (pre ++ s :: post) = scrape_all (pre ++ post) ∧
    runContribution s = ⟨0, 0, 0⟩ ∧
    scrape_all (pre ++ s :: post)
      = sumContributions ((pre ++ s :: post).filter runNotRaising) := by
  have hzero : runContribution s = ⟨0, 0, 0⟩ := by
    rw [runContribution, h]
  refine ⟨?_, hzero, ?_⟩
  · rw [scrape_all_eq_sum, scrape_all_eq_sum, sumContributions_append,
      sumContributions_append]
    have : sumContributions (s :: post) = sumContributions post := by
      show addTotals (runContribution s) (sumContributions post)
        = sumContributions post
      rw [hzero, addTotals_zero_left]
    rw [this]
  · rw [scrape_all_eq_sum, sumContributions_filter]

/-- Witness for C1: a concrete run where the middle of three scrapers
raises; the totals equal those of the two healthy scrapers. -/
theorem C1_witness :
    scrape_all
        [⟨some [{ title := "a", description := "a", url := "ua", source := "s1", published_date := .dt ⟨2024, 1, 1, 0, 0, 0, some 0⟩ }], ⟨1, 0⟩⟩,
         ⟨none, ⟨9, 9⟩⟩,
         ⟨some [{ title := "b", description := "b", url := "ub", source := "s2", published_date := .dt ⟨2024, 1, 1, 0, 0, 0, some 0⟩ }, { title := "c", description := "c", url := "uc", source := "s2", published_date := .dt ⟨2024, 1, 1, 0, 0, 0, some 0⟩ }], ⟨1, 1⟩⟩]
      = scrape_all
        [⟨some [{ title := "a", description := "a", url := "ua", source := "s1", published_date := .dt ⟨2024, 1, 1, 0, 0, 0, some 0⟩ }], ⟨1, 0⟩⟩,
         ⟨some [{ title := "b", description := "b", url := "ub", source := "s2", published_date := .dt ⟨2024, 1, 1, 0, 0, 0, some 0⟩ }, { title := "c", description := "c", url := "uc", source := "s2", published_date := .dt ⟨2024, 1, 1, 0, 0, 0, some 0⟩ }], ⟨1, 1⟩⟩] ∧
    runContribution ⟨none, ⟨9, 9⟩⟩ = ⟨0, 0, 0⟩ :=
  ⟨(C1_orchestrator_resilience
      [⟨some [{ title := "a", description := "a", url := "ua", source := "s1", published_date := .dt ⟨2024, 1, 1, 0, 0, 0, some 0⟩ }], ⟨1, 0⟩⟩]
      [⟨some [{ title := "b", description := "b", url := "ub", source := "s2", published_date := .dt ⟨2024, 1, 1, 0, 0, 0, some 0⟩ }, { title := "c", description := "c", url := "uc", source := "s2", published_date := .dt ⟨2024, 1, 1, 0, 0, 0, some 0⟩ }], ⟨1, 1⟩⟩]
      ⟨none, ⟨9, 9⟩⟩ rfl).1,
   (C1_orchestrator_resilience [] [] ⟨none, ⟨9, 9⟩⟩ rfl).2.1⟩

/-! ## Claim C6 -/

/-- The NZ Herald extraction loop never grows past the cap. -/
theorem heraldLoop_length {α : Type} (extract : α → Option Article)
    (elems : List α) (acc : List Article) (seen : List String)
    (hacc : acc.length ≤ base_default_max_articles) :
    (heraldLoop extract elems acc seen).length ≤ base_default_max_articles := by
  induction elems generalizing acc seen with
  | nil => simpa [heraldLoop] using hacc
  | cons e es ih =>
    by_cases hcap : base_default_max_articles ≤ acc.length
    · simpa [heraldLoop, hcap] using hacc
    · cases hex : extract e with
      | none => simpa [heraldLoop, hcap, hex] using ih acc seen hacc
      | some a =>
        by_cases hseen : a.url ∈ seen
        · simpa [heraldLoop, hcap, hex, hseen] using ih acc seen hacc
        · have hlen : (acc ++ [a]).length ≤ base_default_max_articles := by
            simp only [List.length_append, List.length_cons, List.length_nil]
            omega
          simpa [heraldLoop, hcap, hex, hseen] using
            ih (acc ++ [a]) (seen ++ [a.url]) hlen

/-- Claim C6: every registered scraper returns at most `maxArticles`
articles (the default cap 20), under both strategies: the three feed
scrapers slice the entry list to 20, and the HTML scraper's loop breaks at
`self.max_articles`, for every possible behaviour of the per-element
extractor. -/
theorem C6_max_articles_cap {α : Type} (now : Int)
    (stripHtml : String → String) (feed : Option (List FeedEntry))
    (extract : α → Option Article) (page : Option (List α)) :
    (stuff_scrape now feed).length ≤ 20 ∧
    (rnz_scrape now stripHtml feed).length ≤ 20 ∧
    (onenews_scrape now stripHtml feed).length ≤ 20 ∧
    (nzherald_scrape extract page).length ≤ base_default_max_articles := by
  refine ⟨?_, ?_, ?_, ?_⟩
  · cases feed with
    | none => simp [stuff_scrape]
    | some entries =>
      calc (stuff_scrape now (some entries)).length
          ≤ (entries.take 20).length := List.length_filterMap_le _ _
        _ ≤ 20 := List.length_take_le _ _
  · cases feed with
    | none => simp [rnz_scrape]
    | some entries =>
      calc (rnz_scrape now stripHtml (some entries)).length
          ≤ (entries.take 20).length := List.length_filterMap_le _ _
        _ ≤ 20 := List.length_take_le _ _
  · cases feed with
    | none => simp [onenews_scrape]
    | some entries =>
      calc (onenews_scrape now stripHtml (some entries)).length
          ≤ (entries.take 20).length := List.length_filterMap_le _ _
        _ ≤ 20 := List.length_take_le _ _
  · cases page with
    | none => simp [nzherald_scrape]
    | some elems =>
      exact heraldLoop_length extract elems [] [] (by simp)

/-! ## Claim C4 -/

/-- When every classification call fails, the per-word fallback produces
two empty lists. -/
theorem classify_words_all_fail (cls : String → Option (List ClassItem))
    (text : String) (hc : ∀ q, cls q = none) :
    _classify_words_with_sentiment_model cls text = ([], []) := by
  unfold _classify_words_with_sentiment_model rankedFor
  have hnil : List.filterMap (fun w : String => (none : Option (Rat × String)))
      (_extract_candidate_words text) = [] :=
    List.filterMap_eq_nil_iff.mpr (fun a _ => rfl)
  simp [hc, sortDescRanked, hnil]

/-- Cascade behaviour when both structured lists are empty: the per-word
fallback results are wrapped as JSON strings. -/
theorem cascade_words_empty (cls : String → Option (List ClassItem))
    (gen : String → Option String) (jparse : String → Option JValue)
    (text : String)
    (hst : structured_terms gen jparse text = ([], [])) :
    cascade_words cls gen jparse text
      = ((_classify_words_with_sentiment_model cls text).1.map
          (fun w => .str w),
         (_classify_words_with_sentiment_model cls text).2.map
          (fun w => .str w)) := by
  unfold cascade_words
  rw [hst]
  simp

/-- Cascade behaviour when a structured list is non-empty: the structured
lists are passed through and the fallback is not consulted. -/
theorem cascade_words_nonempty (cls : String → Option (List ClassItem))
    (gen : String → Option String) (jparse : String → Option JValue)
    (text : String) (pos neg : List JValue)
    (hst : structured_terms gen jparse text = (pos, neg))
    (hcond : (pos.isEmpty && neg.isEmpty) = false) :
    cascade_words cls gen jparse text = (pos, neg) := by
  unfold cascade_words
  rw [hst]
  simp [hcond]

/-- Claim C4: (a) if every remote inference call fails, the enrichment
returns label `neutral`, score 0, confidence 0 and two empty lists; (b)
whenever the structured term-extraction step (run on the non-empty
combined text) yields at least one non-empty deduplicated list, exactly
those lists are returned, and the per-word classification fallback is not
consulted: the result only depends on the classifier's answer for the
combined text, not on its answers for individual words. -/
theorem C4_sentiment_cascade (cls : String → Option (List ClassItem))
    (gen : String → Option String) (jparse : String → Option JValue)
    (title description : String) :
    ((∀ q, cls q = none) → (∀ q, gen q = none) →
      analyze_text_sentiment_and_terms cls gen jparse title description
        = { label := "neutral", score := 0, confidence := 0,
            positive_words := [], negative_words := [] }) ∧
    (∀ pos neg,
      pyStrip (pyStrip title ++ " " ++ pyStrip description) ≠ "" →
      structured_terms gen jparse
          (pyStrip (pyStrip title ++ " " ++ pyStrip description))
        = (pos, neg) →
      ¬(pos = [] ∧ neg = []) →
      (analyze_text_sentiment_and_terms cls gen jparse
          title description).positive_words = pos ∧
      (analyze_text_sentiment_and_terms cls gen jparse
          title description).negative_words = neg ∧
      (∀ cls', cls' (pyStrip (pyStrip title ++ " " ++ pyStrip description))
          = cls (pyStrip (pyStrip title ++ " " ++ pyStrip description)) →
        analyze_text_sentiment_and_terms cls' gen jparse title description
          = analyze_text_sentiment_and_terms cls gen jparse
              title description)) := by
  constructor
  · intro hc hg
    unfold analyze_text_sentiment_and_terms
    by_cases ht : pyStrip (pyStrip title ++ " " ++ pyStrip description) = ""
    · simp [ht]
    · have hst : structured_terms gen jparse
          (pyStrip (pyStrip title ++ " " ++ pyStrip description)) = ([], []) := by
        unfold structured_terms
        rw [hg]
      have hcw := cascade_words_empty cls gen jparse
        (pyStrip (pyStrip title ++ " " ++ pyStrip description)) hst
      rw [classify_words_all_fail cls _ hc] at hcw
      simp only [ht, if_neg, hc, hcw]
      simp
  · intro pos neg ht hst hne
    have hcond : (pos.isEmpty && neg.isEmpty) = false := by
      rcases pos with _ | ⟨p, ps⟩
      · rcases neg with _ | ⟨n, ns⟩
        · exact absurd ⟨rfl, rfl⟩ hne
        · rfl
      · rfl
    have hcw := cascade_words_nonempty cls gen jparse
      (pyStrip (pyStrip title ++ " " ++ pyStrip description)) pos neg hst hcond
    refine ⟨?_, ?_, ?_⟩
    · unfold analyze_text_sentiment_and_terms
      simp [ht, hcw]
    · unfold analyze_text_sentiment_and_terms
      simp [ht, hcw]
    · intro cls' hcls
      have hcw' := cascade_words_nonempty cls' gen jparse
        (pyStrip (pyStrip title ++ " " ++ pyStrip description)) pos neg hst hcond
      unfold analyze_text_sentiment_and_terms
      simp [ht, hcls, hcw, hcw']

/-- Witness for C4: with every remote call failing the enrichment is all
defaults; with a generator answering `\x7b\x7d` and the decoder yielding
`positive_words = ["growth","record"]`, exactly those words are returned. -/
theorem C4_witness :
    analyze_text_sentiment_and_terms (fun _ => none) (fun _ => none)
        (fun _ => none) "Tech growth" ""
      = { label := "neutral", score := 0, confidence := 0,
          positive_words := [], negative_words := [] } ∧
    (analyze_text_sentiment_and_terms (fun _ => none)
        (fun _ => some "\x7b\x7d")
        (fun _ => some (.obj
          [("positive_words", .arr [.str "growth", .str "record"]),
           ("negative_words", .arr [])]))
        "Tech growth" "").positive_words
      = [.str "growth", .str "record"] := by
  constructor
  · exact (C4_sentiment_cascade (fun _ => none) (fun _ => none)
      (fun _ => none) "Tech growth" "").1 (fun q => rfl) (fun q => rfl)
  · exact ((C4_sentiment_cascade (fun _ => none) (fun _ => some "\x7b\x7d")
      (fun _ => some (.obj
        [("positive_words", .arr [.str "growth", .str "record"]),
         ("negative_words", .arr [])]))
      "Tech growth" "").2
      [.str "growth", .str "record"] [] (by decide) rfl (by simp)).1

/-! ## Claim C5 -/

/-- Counterexample to claim C5 (word lists distinct, lowercase, at most 8
entries): when the structured-extraction step returns nine distinct words,
all nine are passed through — the 8-entry cap (like lowercasing) is only
enforced on the per-word classification fallback path. -/
theorem C5_cap_counterexample :
    ¬((analyze_text_sentiment_and_terms (fun _ => none)
        (fun _ => some "\x7b\x7d")
        (fun _ => some (.obj [("positive_words",
          .arr [.str "alpha", .str "beta", .str "gamma", .str "delta",
            .str "epsilon", .str "zeta", .str "eta", .str "theta",
            .str "iota"]),
          ("negative_words", .arr [])]))
        "Market update" "").positive_words.length ≤ 8) := by
  decide

/-- Elements produced by `dedupGo` never match the seen accumulator. -/
theorem dedupGo_mem_any_false {α : Type} (beq : α → α → Bool) :
    ∀ (l seen : List α) (x : α), x ∈ dedupGo beq seen l →
      (seen.any (fun y => beq y x)) = false := by
  intro l
  induction l with
  | nil =>
    intro seen x hx
    simp [dedupGo] at hx
  | cons y ys ih =>
    intro seen x hx
    simp only [dedupGo] at hx
    by_cases h : (seen.any (fun z => beq z y)) = true
    · rw [if_pos h] at hx
      exact ih seen x hx
    · rw [if_neg h] at hx
      rcases List.mem_cons.mp hx with rfl | hx'
      · exact Bool.eq_false_iff.mpr h
      · have h2 := ih (y :: seen) x hx'
        rw [List.any_cons] at h2
        exact (Bool.or_eq_false_iff.mp h2).2

/-- Elements produced by `dedupGo` come from the input list. -/
theorem dedupGo_mem {α : Type} (beq : α → α → Bool) :
    ∀ (l seen : List α) (x : α), x ∈ dedupGo beq seen l → x ∈ l := by
  intro l
  induction l with
  | nil =>
    intro seen x hx
    simp [dedupGo] at hx
  | cons y ys ih =>
    intro seen x hx
    simp only [dedupGo] at hx
    by_cases h : (seen.any (fun z => beq z y)) = true
    · rw [if_pos h] at hx
      exact List.mem_cons_of_mem y (ih seen x hx)
    · rw [if_neg h] at hx
      rcases List.mem_cons.mp hx with rfl | hx'
      · exact List.mem_cons_self x ys
      · exact List.mem_cons_of_mem y (ih (y :: seen) x hx')

/-- `dedupGo` yields a duplicate-free list whenever `beq` is reflexive on
the input elements. -/
theorem dedupGo_nodup {α : Type} (beq : α → α → Bool) :
    ∀ (l seen : List α), (∀ x ∈ l, beq x x = true) →
      (dedupGo beq seen l).Nodup := by
  intro l
  induction l with
  | nil =>
    intro seen _
    simp [dedupGo]
  | cons y ys ih =>
    intro seen hrefl
    simp only [dedupGo]
    by_cases h : (seen.any (fun z => beq z y)) = true
    · rw [if_pos h]
      exact ih seen (fun x hx => hrefl x (List.mem_cons_of_mem y hx))
    · rw [if_neg h]
      refine List.nodup_cons.mpr ⟨?_, ih (y :: seen)
        (fun x hx => hrefl x (List.mem_cons_of_mem y hx))⟩
      intro hy
      have h2 := dedupGo_mem_any_false beq ys (y :: seen) y hy
      rw [List.any_cons] at h2
      have := (Bool.or_eq_false_iff.mp h2).1
      rw [hrefl y (List.mem_cons_self y ys)] at this
      exact absurd this (by simp)

/-- Scalar equality is reflexive on hashable values. -/
theorem scalarBeq_refl (v : JValue) (h : v.isScalar = true) :
    scalarBeq v v = true := by
  cases v <;> simp_all [scalarBeq, JValue.isScalar]

/-- Whatever `dict.fromkeys` returns is duplicate-free. -/
theorem pyFromkeys_nodup (v : JValue) (l : List JValue)
    (h : pyFromkeys v = some l) : l.Nodup := by
  cases v with
  | arr xs =>
    simp only [pyFromkeys] at h
    by_cases hall : xs.all JValue.isScalar = true
    · rw [if_pos hall] at h
      injection h with h2
      rw [← h2]
      exact dedupGo_nodup _ _ _
        (fun x hx => scalarBeq_refl x (List.all_eq_true.mp hall x hx))
    · rw [if_neg hall] at h
      cases h
  | str s =>
    simp only [pyFromkeys, Option.some.injEq] at h
    rw [← h]
    refine dedupGo_nodup _ _ _ (fun x hx => ?_)
    obtain ⟨c, -, rfl⟩ := List.mem_map.mp hx
    simp [scalarBeq]
  | obj fs =>
    simp only [pyFromkeys, Option.some.injEq] at h
    rw [← h]
    refine dedupGo_nodup _ _ _ (fun x hx => ?_)
    obtain ⟨c, -, rfl⟩ := List.mem_map.mp hx
    simp [scalarBeq]
  | null => cases h
  | bool b => cases h
  | num n => cases h

/-- Both structured-extraction lists are duplicate-free. -/
theorem structured_terms_nodup (gen : String → Option String)
    (jparse : String → Option JValue) (text : String) :
    (structured_terms gen jparse text).1.Nodup ∧
    (structured_terms gen jparse text).2.Nodup := by
  unfold structured_terms
  cases gen (extraction_prompt text) with
  | none => simp
  | some g =>
    cases hp : pyFromkeys
        (jGet (_parse_json_block jparse g) "positive_words" (.arr [])) with
    | none =>
      simp only [hp]
      simp
    | some pos =>
      cases hn : pyFromkeys
          (jGet (_parse_json_block jparse g) "negative_words" (.arr [])) with
      | none =>
        simp only [hp, hn]
        exact ⟨pyFromkeys_nodup _ _ hp, List.nodup_nil⟩
      | some neg =>
        simp only [hp, hn]
        exact ⟨pyFromkeys_nodup _ _ hp, pyFromkeys_nodup _ _ hn⟩

/-- Inserting into the descending-sorted list is a permutation. -/
theorem insertDesc_perm (x : Rat × String) (l : List (Rat × String)) :
    List.Perm (insertDesc x l) (x :: l) := by
  induction l with
  | nil => exact List.Perm.refl _
  | cons y ys ih =>
    simp only [insertDesc]
    by_cases h : y.1 ≤ x.1
    · rw [if_pos h]
    · rw [if_neg h]
      exact (List.Perm.cons y ih).trans (List.Perm.swap x y ys)

/-- The stable descending sort permutes its input. -/
theorem sortDescRanked_perm (l : List (Rat × String)) :
    List.Perm (sortDescRanked l) l := by
  induction l with
  | nil => exact List.Perm.refl _
  | cons x xs ih =>
    exact (insertDesc_perm x (List.foldr insertDesc [] xs)).trans
      (List.Perm.cons x ih)

/-- Mapping the carried value out of a `filterMap` that preserves it gives
a sublist of the input. -/
theorem filterMap_pair_snd_sublist {α β : Type} (f : α → Option (β × α))
    (hf : ∀ a p, f a = some p → p.2 = a) :
    ∀ l : List α, ((l.filterMap f).map (fun p => p.2)).Sublist l := by
  intro l
  induction l with
  | nil => simp
  | cons a as ih =>
    rw [List.filterMap_cons]
    cases hfa : f a with
    | none => exact ih.cons a
    | some p =>
      rw [List.map_cons, hf a p hfa]
      exact ih.cons₂ a

/-- The classified-word pairs of `rankedFor` carry their own input word. -/
theorem rankedFor_snd_sublist (cls : String → Option (List ClassItem))
    (want : String) (cands : List String) :
    ((rankedFor cls want cands).map (fun p => p.2)).Sublist cands := by
  unfold rankedFor
  apply filterMap_pair_snd_sublist
  intro a p h
  revert h
  cases cls a with
  | none => intro h; cases h
  | some items =>
    cases items with
    | nil => intro h; cases h
    | cons top rest =>
      by_cases h1 : top.score < mkRat 6 10
      · simp [h1]
      · by_cases h2 : (asciiLowerStr top.label == want) = true
        · simp only [h1, if_neg, h2, if_pos, if_true]
          intro h
          injection h with h3
          rw [← h3]
        · simp [h1, h2]

/-- Lowercasing never yields an uppercase ASCII letter. -/
theorem isUpperA_asciiLower (c : Char) : isUpperA (asciiLower c) = false := by
  unfold asciiLower
  cases hf : upperPairs.find? (fun p => p.1 == c) with
  | none =>
    simp only [Option.map_none', Option.getD_none]
    unfold isUpperA
    rw [List.any_eq_false]
    intro p hp
    have := List.find?_eq_none.mp hf p hp
    simpa using this
  | some pr =>
    have hmem := List.mem_of_find?_eq_some hf
    have hall : ∀ p ∈ upperPairs, isUpperA p.2 = false := by decide
    simpa using hall pr hmem

/-- Non-uppercase characters are fixed by lowercasing. -/
theorem asciiLower_eq_self (c : Char) (h : isUpperA c = false) :
    asciiLower c = c := by
  unfold asciiLower
  cases hf : upperPairs.find? (fun p => p.1 == c) with
  | none => simp
  | some pr =>
    exfalso
    have hp := List.find?_some hf
    have hmem := List.mem_of_find?_eq_some hf
    have htrue : isUpperA c = true := by
      unfold isUpperA
      rw [List.any_eq_true]
      exact ⟨pr, hmem, hp⟩
    rw [htrue] at h
    cases h

/-- Every character of every token comes from the scanned list. -/
theorem findTokensAux_chars :
    ∀ (fuel : Nat) (cs : List Char),
      ∀ t ∈ findTokensAux fuel cs, ∀ c ∈ t, c ∈ cs := by
  intro fuel
  induction fuel with
  | zero =>
    intro cs t ht
    simp [findTokensAux] at ht
  | succ fuel ih =>
    intro cs t ht ch hch
    cases cs with
    | nil => simp [findTokensAux] at ht
    | cons a rest =>
      rw [findTokensAux] at ht
      by_cases ha : isAlphaA a = true
      · rw [if_pos ha] at ht
        by_cases hlen : 2 ≤ (rest.takeWhile isWordTail).length
        · rw [if_pos hlen] at ht
          rcases List.mem_cons.mp ht with rfl | ht'
          · rcases List.mem_cons.mp hch with rfl | hch'
            · exact List.mem_cons_self _ _
            · exact List.mem_cons_of_mem a
                ((List.takeWhile_sublist _).subset hch')
          · exact List.mem_cons_of_mem a
              ((List.drop_sublist _ _).subset (ih _ t ht' ch hch))
        · rw [if_neg hlen] at ht
          exact List.mem_cons_of_mem a (ih rest t ht ch hch)
      · rw [if_neg ha] at ht
        exact List.mem_cons_of_mem a (ih rest t ht ch hch)

/-- Every character of every token comes from the scanned list. -/
theorem findTokens_chars (cs : List Char) :
    ∀ t ∈ findTokens cs, ∀ c ∈ t, c ∈ cs :=
  findTokensAux_chars cs.length cs

/-- Candidate-loop output avoids the seen accumulator. -/
theorem candLoop_not_seen :
    ∀ (l seen : List String), ∀ w ∈ candLoop l seen, w ∉ seen := by
  intro l
  induction l with
  | nil =>
    intro seen w hw
    simp [candLoop] at hw
  | cons x xs ih =>
    intro seen w hw
    rw [candLoop] at hw
    by_cases h1 : stopWords.contains x = true
    · rw [if_pos h1] at hw
      exact ih seen w hw
    · rw [if_neg h1] at hw
      by_cases h2 : seen.contains x = true
      · rw [if_pos h2] at hw
        exact ih seen w hw
      · rw [if_neg h2] at hw
        have h2' : x ∉ seen := by
          intro hm
          apply h2
          simp [List.contains, List.elem_eq_mem, hm]
        rcases List.mem_cons.mp hw with rfl | hw'
        · exact h2'
        · have h3 := ih (x :: seen) w hw'
          intro hm
          exact h3 (List.mem_cons_of_mem x hm)

/-- Candidate-loop output is duplicate-free. -/
theorem candLoop_nodup : ∀ (l seen : List String), (candLoop l seen).Nodup := by
  intro l
  induction l with
  | nil =>
    intro seen
    simp [candLoop]
  | cons x xs ih =>
    intro seen
    rw [candLoop]
    by_cases h1 : stopWords.contains x = true
    · rw [if_pos h1]
      exact ih seen
    · rw [if_neg h1]
      by_cases h2 : seen.contains x = true
      · rw [if_pos h2]
        exact ih seen
      · rw [if_neg h2]
        refine List.nodup_cons.mpr ⟨?_, ih (x :: seen)⟩
        intro hx
        exact candLoop_not_seen xs (x :: seen) x hx (List.mem_cons_self x seen)

/-- Candidate-loop output comes from the token list. -/
theorem candLoop_mem :
    ∀ (l seen : List String), ∀ w ∈ candLoop l seen, w ∈ l := by
  intro l
  induction l with
  | nil =>
    intro seen w hw
    simp [candLoop] at hw
  | cons x xs ih =>
    intro seen w hw
    rw [candLoop] at hw
    by_cases h1 : stopWords.contains x = true
    · rw [if_pos h1] at hw
      exact List.mem_cons_of_mem x (ih seen w hw)
    · rw [if_neg h1] at hw
      by_cases h2 : seen.contains x = true
      · rw [if_pos h2] at hw
        exact List.mem_cons_of_mem x (ih seen w hw)
      · rw [if_neg h2] at hw
        rcases List.mem_cons.mp hw with rfl | hw'
        · exact List.mem_cons_self w xs
        · exact List.mem_cons_of_mem x (ih (x :: seen) w hw')

/-- Word tokens of the lowered text contain no uppercase ASCII letter, so
`str.lower` fixes them. -/
theorem pyWordTokens_lower (text : String) :
    ∀ w ∈ pyWordTokens text, asciiLowerStr w = w := by
  intro w hw
  unfold pyWordTokens at hw
  obtain ⟨t, ht, rfl⟩ := List.mem_map.mp hw
  have hchars := findTokens_chars _ t ht
  unfold asciiLowerStr
  have hmap : t.map asciiLower = t := by
    have : ∀ c ∈ t, asciiLower c = c := by
      intro c hc
      obtain ⟨c0, -, rfl⟩ := List.mem_map.mp (hchars c hc)
      exact asciiLower_eq_self _ (isUpperA_asciiLower c0)
    calc t.map asciiLower = t.map id := List.map_congr_left this
      _ = t := List.map_id t
  simp [hmap]

/-- Candidate words for per-word classification are lowercase. -/
theorem extract_candidates_lower (text : String) (limit : Nat) :
    ∀ w ∈ _extract_candidate_words text limit, asciiLowerStr w = w := by
  intro w hw
  unfold _extract_candidate_words at hw
  exact pyWordTokens_lower text w
    (candLoop_mem _ _ w (List.mem_of_mem_take hw))

/-- Candidate words are pairwise distinct. -/
theorem extract_candidates_nodup (text : String) (limit : Nat) :
    (_extract_candidate_words text limit).Nodup :=
  List.Nodup.sublist (List.take_sublist _ _) (candLoop_nodup _ [])

/-- Properties of one side of the per-word classification fallback: the
ranked, truncated word list is duplicate-free, at most 8 long, and all
lowercase. -/
theorem fallback_side_props (cls : String → Option (List ClassItem))
    (want text : String) :
    (((sortDescRanked (rankedFor cls want
        (_extract_candidate_words text))).take 8).map
          (fun p => p.2)).Nodup ∧
    (((sortDescRanked (rankedFor cls want
        (_extract_candidate_words text))).take 8).map
          (fun p => p.2)).length ≤ 8 ∧
    (∀ w ∈ ((sortDescRanked (rankedFor cls want
        (_extract_candidate_words text))).take 8).map (fun p => p.2),
      asciiLowerStr w = w) := by
  have hswap :
      ((sortDescRanked (rankedFor cls want
          (_extract_candidate_words text))).take 8).map (fun p => p.2)
        = ((sortDescRanked (rankedFor cls want
          (_extract_candidate_words text))).map (fun p => p.2)).take 8 := by
    rw [List.map_take]
  have hperm :
      List.Perm
        ((sortDescRanked (rankedFor cls want
          (_extract_candidate_words text))).map (fun p => p.2))
        ((rankedFor cls want (_extract_candidate_words text)).map
          (fun p => p.2)) :=
    (sortDescRanked_perm _).map _
  have hbase :
      ((rankedFor cls want (_extract_candidate_words text)).map
        (fun p => p.2)).Nodup :=
    List.Nodup.sublist (rankedFor_snd_sublist cls want _)
      (extract_candidates_nodup text 30)
  refine ⟨?_, ?_, ?_⟩
  · rw [hswap]
    exact List.Nodup.sublist (List.take_sublist _ _)
      (hperm.nodup_iff.mpr hbase)
  · rw [hswap]
    exact List.length_take_le _ _
  · intro w hw
    rw [hswap] at hw
    have hw2 := hperm.mem_iff.mp (List.mem_of_mem_take hw)
    have hw3 := (rankedFor_snd_sublist cls want _).subset hw2
    exact extract_candidates_lower text 30 w hw3

/-- The per-word classification fallback returns distinct, lowercase word
lists of at most 8 entries each, for every classifier behaviour. -/
theorem classify_words_props (cls : String → Option (List ClassItem))
    (text : String) :
    (_classify_words_with_sentiment_model cls text).1.Nodup ∧
    (_classify_words_with_sentiment_model cls text).2.Nodup ∧
    (_classify_words_with_sentiment_model cls text).1.length ≤ 8 ∧
    (_classify_words_with_sentiment_model cls text).2.length ≤ 8 ∧
    (∀ w ∈ (_classify_words_with_sentiment_model cls text).1,
      asciiLowerStr w = w) ∧
    (∀ w ∈ (_classify_words_with_sentiment_model cls text).2,
      asciiLowerStr w = w) := by
  obtain ⟨hp1, hp2, hp3⟩ := fallback_side_props cls "positive" text
  obtain ⟨hn1, hn2, hn3⟩ := fallback_side_props cls "negative" text
  exact ⟨hp1, hn1, hp2, hn2, hp3, hn3⟩

/-- Both cascade outputs are duplicate-free on every path. -/
theorem cascade_words_nodup (cls : String → Option (List ClassItem))
    (gen : String → Option String) (jparse : String → Option JValue)
    (text : String) :
    (cascade_words cls gen jparse text).1.Nodup ∧
    (cascade_words cls gen jparse text).2.Nodup := by
  have hinj : Function.Injective (fun w => JValue.str w) := by
    intro a b h
    injection h
  obtain ⟨hsn1, hsn2⟩ := structured_terms_nodup gen jparse text
  obtain ⟨hf1, hf2, -, -, -, -⟩ := classify_words_props cls text
  unfold cascade_words
  by_cases hcond : ((structured_terms gen jparse text).1.isEmpty
      && (structured_terms gen jparse text).2.isEmpty) = true
  · simp only [hcond, if_pos]
    exact ⟨hf1.map hinj, hf2.map hinj⟩
  · rw [Bool.not_eq_true] at hcond
    simp only [hcond, Bool.false_eq_true, if_false]
    exact ⟨hsn1, hsn2⟩

/-- The word lists in the final enrichment result are duplicate-free on
every path of the cascade. -/
theorem analyze_words_nodup (cls : String → Option (List ClassItem))
    (gen : String → Option String) (jparse : String → Option JValue)
    (title description : String) :
    (analyze_text_sentiment_and_terms cls gen jparse
      title description).positive_words.Nodup ∧
    (analyze_text_sentiment_and_terms cls gen jparse
      title description).negative_words.Nodup := by
  unfold analyze_text_sentiment_and_terms
  by_cases ht : pyStrip (pyStrip title ++ " " ++ pyStrip description) = ""
  · simp [ht]
  · simp only [ht, if_neg]
    exact cascade_words_nodup cls gen jparse
      (pyStrip (pyStrip title ++ " " ++ pyStrip description))

/-- Claim C5, amended: the enrichment word lists are always ordered
sequences of distinct entries, and the per-word classification fallback
additionally guarantees lowercase terms capped at 8 per list; the
structured-extraction path, however, passes the model's deduplicated
lists through without enforcing lowercase or the 8-entry cap. -/
theorem C5_term_lists_amended (cls : String → Option (List ClassItem))
    (gen : String → Option String) (jparse : String → Option JValue)
    (text title description : String) :
    ((_classify_words_with_sentiment_model cls text).1.Nodup ∧
     (_classify_words_with_sentiment_model cls text).2.Nodup ∧
     (_classify_words_with_sentiment_model cls text).1.length ≤ 8 ∧
     (_classify_words_with_sentiment_model cls text).2.length ≤ 8 ∧
     (∀ w ∈ (_classify_words_with_sentiment_model cls text).1,
       asciiLowerStr w = w) ∧
     (∀ w ∈ (_classify_words_with_sentiment_model cls text).2,
       asciiLowerStr w = w)) ∧
    ((structured_terms gen jparse text).1.Nodup ∧
     (structured_terms gen jparse text).2.Nodup) ∧
    ((analyze_text_sentiment_and_terms cls gen jparse
        title description).positive_words.Nodup ∧
     (analyze_text_sentiment_and_terms cls gen jparse
        title description).negative_words.Nodup) :=
  ⟨classify_words_props cls text, structured_terms_nodup gen jparse text,
   analyze_words_nodup cls gen jparse title description⟩

/-- Witness for the amended C5 with a concrete classifier that accepts
one positive word: the produced list is the lowercase singleton
`["growth"]`, within the cap. -/
theorem C5_witness :
    asciiLowerStr "growth" = "growth" ∧
    (_classify_words_with_sentiment_model
      (fun q => if q = "growth" then some [⟨"positive", mkRat 9 10⟩]
        else none)
      "growth slump").1.length ≤ 8 := by
  have h := C5_term_lists_amended
    (fun q => if q = "growth" then some [⟨"positive", mkRat 9 10⟩]
      else none)
    (fun _ => none) (fun _ => none) "growth slump" "t" "d"
  have hmem : "growth" ∈ (_classify_words_with_sentiment_model
      (fun q => if q = "growth" then some [⟨"positive", mkRat 9 10⟩]
        else none)
      "growth slump").1 := by
    decide
  exact ⟨h.1.2.2.2.2.1 "growth" hmem, h.1.2.2.1⟩
